import Mathlib

/-!
Verification of the AD5668 DAC driver.

The development shallowly embeds the driver's code: the pure frame encoder
`encode_update_command` together with the `Command`, `Address` and
`InternalRef` enumerations, and the stateful driver `AD5668` whose bus and
chip-select effects are recorded as explicit event traces.  The SPI bus is
modelled as a write capability returning `Except E Unit`, the chip-select
pin as a pair of set-high / set-low capabilities returning `Except EP Unit`;
every driver operation returns the list of hardware events it performs in
order, together with its result value.
-/

namespace AD5668Driver

/-- Command opcodes of the device, with the `repr(u8)` discriminants of the
source's `enum Command`. -/
inductive Command where
  | WriteInputRegister
  | UpdateDacRegister
  | WriteInputUpdateAll
  | WriteUpdateDacChannel
  | PowerDACUpDown
  | LoadClearCodeRegister
  | LoadLDACRegister
  | Reset
  | SetInternalRefRegister
  deriving DecidableEq

/-- The `u8` discriminant of each command (`command as u8` in the source). -/
def Command.code : Command → Nat
  | .WriteInputRegister => 0
  | .UpdateDacRegister => 1
  | .WriteInputUpdateAll => 2
  | .WriteUpdateDacChannel => 3
  | .PowerDACUpDown => 4
  | .LoadClearCodeRegister => 5
  | .LoadLDACRegister => 6
  | .Reset => 7
  | .SetInternalRefRegister => 8

/-- Channel addresses of the device, with the `repr(u8)` discriminants of the
source's `enum Address`: eight channels and the broadcast value. -/
inductive Address where
  | DacA
  | DacB
  | DacC
  | DacD
  | DacE
  | DacF
  | DacG
  | DacH
  | AllDacs
  deriving DecidableEq

/-- The `u8` discriminant of each address (`address as u8` in the source). -/
def Address.code : Address → Nat
  | .DacA => 0
  | .DacB => 1
  | .DacC => 2
  | .DacD => 3
  | .DacE => 4
  | .DacF => 5
  | .DacG => 6
  | .DacH => 7
  | .AllDacs => 15

/-- The internal-reference register payloads of the source's
`enum InternalRef`. -/
inductive InternalRef where
  | Disabled
  | Enabled
  deriving DecidableEq

/-- The `u8` discriminant of each internal-reference payload. -/
def InternalRef.code : InternalRef → Nat
  | .Disabled => 0
  | .Enabled => 1

/-- Embedding of `encode_update_command` from the source.  A `u16` value is a
natural number; the Rust casts and shifts become division, multiplication and
reduction modulo `2^8` and `2^16` exactly where the machine operations
truncate:
byte 0 is `command as u8` (the discriminant, already below 256);
byte 1 is `((address as u8) << 4) + (value >> 12) as u8`;
byte 2 is `(value >> 4) as u8`;
byte 3 is `(value << 4) as u8` (a `u16` shift, then truncation to `u8`). -/
def encode_update_command (command : Command) (address : Address) (value : Nat) : List Nat :=
  [ command.code,
    ((address.code * 16) % 256 + (value / 4096) % 256) % 256,
    (value / 16) % 256,
    (value * 16) % 65536 % 256 ]

/-- The SPI bus capability: one blocking write operation that either sends the
whole byte sequence or reports a bus error of type `E`. -/
structure SpiBus (E : Type) where
  write : List Nat → Except E Unit

/-- The chip-select pin capability: set-high and set-low operations, each of
which may report a line error of type `EP`. -/
structure ChipSelect (EP : Type) where
  set_high : Except EP Unit
  set_low : Except EP Unit

/-- The driver: it owns one SPI bus capability and one chip-select
capability, exactly as the source's `struct AD5668<SPI, CS>`. -/
structure AD5668 (E EP : Type) where
  spi : SpiBus E
  chip_select : ChipSelect EP

/-- One hardware event performed by a driver operation, in the order they are
issued; each event records the result the capability returned, so that a
discarded error stays observable in the trace. -/
inductive Event (E EP : Type) where
  | csSetLow (result : Except EP Unit)
  | csSetHigh (result : Except EP Unit)
  | busWrite (data : List Nat) (result : Except E Unit)

variable {E EP : Type}

/-- Whether an event is a chip-select deassertion (set high). -/
def Event.isCsSetHigh : Event E EP → Bool
  | .csSetHigh _ => true
  | _ => false

/-- Whether an event is a chip-select assertion (set low). -/
def Event.isCsSetLow : Event E EP → Bool
  | .csSetLow _ => true
  | _ => false

/-- The byte sequences written to the bus during a trace, in order. -/
def writesOf (trace : List (Event E EP)) : List (List Nat) :=
  trace.filterMap fun e =>
    match e with
    | .busWrite data _ => some data
    | _ => none

/-- A trace leaves chip-select deasserted: the last chip-select event in the
trace, if any, is a set-high. -/
def csDeassertedAtEnd (trace : List (Event E EP)) : Bool :=
  match (trace.filter fun e => e.isCsSetLow || e.isCsSetHigh).getLast? with
  | some e => e.isCsSetHigh
  | none => true

/-- Embedding of `AD5668::new`: drive chip-select high (discarding its
result via `.ok()`), then return the constructed driver.  The second
component is the trace of hardware events construction performs. -/
def AD5668.new (spi : SpiBus E) (chip_select : ChipSelect EP) :
    AD5668 E EP × List (Event E EP) :=
  ({ spi := spi, chip_select := chip_select },
   [Event.csSetHigh chip_select.set_high])

/-- Embedding of the private helper `write_spi`: set chip-select low
(result discarded), write the data to the bus, set chip-select high
(result discarded), and return the bus write's result. -/
def AD5668.write_spi (d : AD5668 E EP) (data : List Nat) :
    List (Event E EP) × Except E Unit :=
  ([Event.csSetLow d.chip_select.set_low,
    Event.busWrite data (d.spi.write data),
    Event.csSetHigh d.chip_select.set_high],
   d.spi.write data)

/-- Embedding of `AD5668::write_input_register`. -/
def AD5668.write_input_register (d : AD5668 E EP) (address : Address) (value : Nat) :
    List (Event E EP) × Except E Unit :=
  d.write_spi (encode_update_command Command.WriteInputRegister address value)

/-- Embedding of `AD5668::update_dac_register`. -/
def AD5668.update_dac_register (d : AD5668 E EP) (address : Address) (value : Nat) :
    List (Event E EP) × Except E Unit :=
  d.write_spi (encode_update_command Command.UpdateDacRegister address value)

/-- Embedding of `AD5668::write_input_register_update_all`. -/
def AD5668.write_input_register_update_all (d : AD5668 E EP) (address : Address) (value : Nat) :
    List (Event E EP) × Except E Unit :=
  d.write_spi (encode_update_command Command.WriteInputUpdateAll address value)

/-- Embedding of `AD5668::write_and_update_dac_channel`. -/
def AD5668.write_and_update_dac_channel (d : AD5668 E EP) (address : Address) (value : Nat) :
    List (Event E EP) × Except E Unit :=
  d.write_spi (encode_update_command Command.WriteUpdateDacChannel address value)

/-- Embedding of `AD5668::enable_internal_ref`. -/
def AD5668.enable_internal_ref (d : AD5668 E EP) :
    List (Event E EP) × Except E Unit :=
  d.write_spi [Command.SetInternalRefRegister.code, 0x00, 0x00, InternalRef.Enabled.code]

/-- Embedding of `AD5668::disable_internal_ref`. -/
def AD5668.disable_internal_ref (d : AD5668 E EP) :
    List (Event E EP) × Except E Unit :=
  d.write_spi [Command.SetInternalRefRegister.code, 0x00, 0x00, InternalRef.Disabled.code]

/-- Embedding of `AD5668::reset`. -/
def AD5668.reset (d : AD5668 E EP) :
    List (Event E EP) × Except E Unit :=
  d.write_spi [Command.Reset.code, 0x00, 0x00, 0x00]

/-- Embedding of `AD5668::destroy`: consume the driver and return its SPI bus
and chip-select capabilities, performing no hardware event. -/
def AD5668.destroy (d : AD5668 E EP) :
    (SpiBus E × ChipSelect EP) × List (Event E EP) :=
  ((d.spi, d.chip_select), [])

/-- Bitwise OR of a value shifted left by `k` bits with a `k`-bit value is
their sum: the bit ranges are disjoint. -/
theorem lor_mul_pow (k : Nat) : ∀ a b : Nat, b < 2 ^ k → (a * 2 ^ k) ||| b = a * 2 ^ k + b := by
  induction k with
  | zero =>
    intro a b hb
    have hb0 : b = 0 := by omega
    subst hb0
    simp
  | succ k ih =>
    intro a b hb
    have hpow : 2 ^ (k + 1) = 2 * 2 ^ k := by rw [pow_succ]; ring
    have hb2 : b / 2 < 2 ^ k := by omega
    have h1 : a * 2 ^ (k + 1) = Nat.bit false (a * 2 ^ k) := by
      simp [Nat.bit_val, hpow]; ring
    have h2 : b = Nat.bit (decide (b % 2 = 1)) (b / 2) := by
      rcases Nat.mod_two_eq_zero_or_one b with h | h <;>
        simp [Nat.bit_val, h] <;> omega
    rw [h1]
    conv_lhs => rw [h2]
    rw [Nat.lor_bit]
    rw [ih a (b / 2) hb2]
    rcases Nat.mod_two_eq_zero_or_one b with h | h <;>
      simp [Nat.bit_val, h, hpow] <;> omega

/-- Specialisation to nibbles: `(a <<< 4) ||| b = a * 16 + b` for `b < 16`. -/
theorem lor_nibble (a b : Nat) (hb : b < 16) : (a * 16) ||| b = a * 16 + b := by
  have h := lor_mul_pow 4 a b (by norm_num [hb])
  norm_num at h
  exact h

/-- Every address discriminant fits in a nibble. -/
theorem Address.code_le (a : Address) : a.code ≤ 15 := by
  cases a <;> decide

/-- C1: for every command kind, every one of the 9 valid channel addresses and
every 16-bit value, the encoded frame has byte 1 equal to the address in the
high nibble OR'd with the top 4 bits of the value, byte 2 equal to the middle
8 bits of the value, and byte 3 equal to the low 4 bits of the value shifted
into the high nibble with the low nibble zero; the broadcast address
`AllDacs` carries all four address bits `0b1111`. -/
theorem C1_encode_bitfields (c : Command) (a : Address) (v : Nat) (hv : v < 65536) :
    encode_update_command c a v =
      [c.code, (a.code * 16) ||| (v / 4096), (v / 16) % 256, (v % 16) * 16] ∧
    ((v % 16) * 16) % 16 = 0 ∧
    Address.AllDacs.code = 15 := by
  have ha : a.code ≤ 15 := a.code_le
  have hv4 : v / 4096 < 16 := by omega
  have hlor : (a.code * 16) ||| (v / 4096) = a.code * 16 + v / 4096 :=
    lor_nibble a.code (v / 4096) hv4
  refine ⟨?_, by omega, rfl⟩
  unfold encode_update_command
  rw [hlor]
  have h1 : ((a.code * 16) % 256 + (v / 4096) % 256) % 256 = a.code * 16 + v / 4096 := by
    omega
  have h3 : (v * 16) % 65536 % 256 = (v % 16) * 16 := by
    omega
  rw [h1, h3]

/-- Witness for C1 at command `WriteUpdateDacChannel`, address `AllDacs` and
value `0x1234`. -/
theorem C1_encode_bitfields_witness :
    encode_update_command Command.WriteUpdateDacChannel Address.AllDacs 4660 =
      [Command.WriteUpdateDacChannel.code,
       (Address.AllDacs.code * 16) ||| (4660 / 4096),
       (4660 / 16) % 256,
       (4660 % 16) * 16] ∧
    ((4660 % 16) * 16) % 16 = 0 ∧
    Address.AllDacs.code = 15 :=
  C1_encode_bitfields Command.WriteUpdateDacChannel Address.AllDacs 4660 (by decide)

/-- C2 fails on the code: at command `WriteUpdateDacChannel` (opcode `0b0011`),
address `DacA` and value `0`, byte 0 of the frame is `0x03`, whose high nibble
is `0`, not the opcode, and whose low nibble is `3`, not zero. -/
theorem C2_counterexample :
    ¬(((encode_update_command Command.WriteUpdateDacChannel Address.DacA 0).getD 0 0) / 16 =
        Command.WriteUpdateDacChannel.code ∧
      ((encode_update_command Command.WriteUpdateDacChannel Address.DacA 0).getD 0 0) % 16 = 0) := by
  decide

/-- C2 amended: for every command, channel address and value, the opcode
occupies the LOW nibble of byte 0 of the encoded frame, and byte 0's HIGH
nibble is reserved/zero. -/
theorem C2_opcode_low_nibble (c : Command) (a : Address) (v : Nat) :
    ((encode_update_command c a v).getD 0 0) % 16 = c.code ∧
    ((encode_update_command c a v).getD 0 0) / 16 = 0 := by
  cases c <;> simp [encode_update_command, Command.code]

/-- C3: the encoder produces exactly the three frames the specification
lists: write-and-update-channel of `0x0000` to `DacA`, write-input-register
of `0x0000` to `AllDacs`, and write-input-register of `0xFFFF` to `DacA`. -/
theorem C3_example_frames :
    encode_update_command Command.WriteUpdateDacChannel Address.DacA 0 =
      [0x03, 0x00, 0x00, 0x00] ∧
    encode_update_command Command.WriteInputRegister Address.AllDacs 0 =
      [0x00, 0xF0, 0x00, 0x00] ∧
    encode_update_command Command.WriteInputRegister Address.DacA 0xFFFF =
      [0x00, 0x0F, 0xFF, 0xF0] := by
  decide

/-- C4: the control operations write fixed frames to the bus:
`enable_internal_ref` writes exactly `[0x08, 0x00, 0x00, 0x01]`,
`disable_internal_ref` writes exactly `[0x08, 0x00, 0x00, 0x00]`, and
`reset` writes exactly `[0x07, 0x00, 0x00, 0x00]` — each performs exactly
one bus write of that frame. -/
theorem C4_control_frames (d : AD5668 E EP) :
    writesOf d.enable_internal_ref.1 = [[0x08, 0x00, 0x00, 0x01]] ∧
    writesOf d.disable_internal_ref.1 = [[0x08, 0x00, 0x00, 0x00]] ∧
    writesOf d.reset.1 = [[0x07, 0x00, 0x00, 0x00]] :=
  ⟨rfl, rfl, rfl⟩

/-- C5: every per-command operation performs exactly the event sequence
chip-select low, one bus write of its frame, chip-select high, in that
order, whatever result the bus write returns; consequently every public
operation (construction and destruction included) leaves chip-select
deasserted. -/
theorem C5_framed_write_sequence (d : AD5668 E EP) (a : Address) (v : Nat)
    (s : SpiBus E) (c : ChipSelect EP) :
    (d.write_input_register a v).1 =
      [Event.csSetLow d.chip_select.set_low,
       Event.busWrite (encode_update_command Command.WriteInputRegister a v)
         (d.spi.write (encode_update_command Command.WriteInputRegister a v)),
       Event.csSetHigh d.chip_select.set_high] ∧
    (d.update_dac_register a v).1 =
      [Event.csSetLow d.chip_select.set_low,
       Event.busWrite (encode_update_command Command.UpdateDacRegister a v)
         (d.spi.write (encode_update_command Command.UpdateDacRegister a v)),
       Event.csSetHigh d.chip_select.set_high] ∧
    (d.write_input_register_update_all a v).1 =
      [Event.csSetLow d.chip_select.set_low,
       Event.busWrite (encode_update_command Command.WriteInputUpdateAll a v)
         (d.spi.write (encode_update_command Command.WriteInputUpdateAll a v)),
       Event.csSetHigh d.chip_select.set_high] ∧
    (d.write_and_update_dac_channel a v).1 =
      [Event.csSetLow d.chip_select.set_low,
       Event.busWrite (encode_update_command Command.WriteUpdateDacChannel a v)
         (d.spi.write (encode_update_command Command.WriteUpdateDacChannel a v)),
       Event.csSetHigh d.chip_select.set_high] ∧
    d.enable_internal_ref.1 =
      [Event.csSetLow d.chip_select.set_low,
       Event.busWrite [0x08, 0x00, 0x00, 0x01] (d.spi.write [0x08, 0x00, 0x00, 0x01]),
       Event.csSetHigh d.chip_select.set_high] ∧
    d.disable_internal_ref.1 =
      [Event.csSetLow d.chip_select.set_low,
       Event.busWrite [0x08, 0x00, 0x00, 0x00] (d.spi.write [0x08, 0x00, 0x00, 0x00]),
       Event.csSetHigh d.chip_select.set_high] ∧
    d.reset.1 =
      [Event.csSetLow d.chip_select.set_low,
       Event.busWrite [0x07, 0x00, 0x00, 0x00] (d.spi.write [0x07, 0x00, 0x00, 0x00]),
       Event.csSetHigh d.chip_select.set_high] ∧
    csDeassertedAtEnd (d.write_input_register a v).1 = true ∧
    csDeassertedAtEnd (d.update_dac_register a v).1 = true ∧
    csDeassertedAtEnd (d.write_input_register_update_all a v).1 = true ∧
    csDeassertedAtEnd (d.write_and_update_dac_channel a v).1 = true ∧
    csDeassertedAtEnd d.enable_internal_ref.1 = true ∧
    csDeassertedAtEnd d.disable_internal_ref.1 = true ∧
    csDeassertedAtEnd d.reset.1 = true ∧
    csDeassertedAtEnd (AD5668.new s c).2 = true ∧
    csDeassertedAtEnd (AD5668.destroy d).2 = true :=
  ⟨rfl, rfl, rfl, rfl, rfl, rfl, rfl, rfl, rfl, rfl, rfl, rfl, rfl, rfl, rfl, rfl⟩

/-- C7: driver construction performs exactly one hardware event — driving
chip-select high — before anything else, performs no bus write, and returns
the driver built from the two capabilities whatever result the chip-select
step returned (construction cannot fail). -/
theorem C7_construction (s : SpiBus E) (c : ChipSelect EP) :
    (AD5668.new s c).2 = [Event.csSetHigh c.set_high] ∧
    writesOf (AD5668.new s c).2 = [] ∧
    (AD5668.new s c).1 = ⟨s, c⟩ :=
  ⟨rfl, rfl, rfl⟩

/-- C9: destruction consumes the driver and returns exactly the SPI bus
capability and the chip-select capability it owns, in that order, and
performs no hardware event; in particular a driver constructed from
`(s, c)` releases back those same two capabilities. -/
theorem C9_destroy_roundtrip (s : SpiBus E) (c : ChipSelect EP) (d : AD5668 E EP) :
    ((AD5668.new s c).1.destroy).1 = (s, c) ∧
    d.destroy.1 = (d.spi, d.chip_select) ∧
    d.destroy.2 = [] :=
  ⟨rfl, rfl, rfl⟩

/-- C6: every per-command operation passes the bus write's result through
unchanged — a failing write's exact error is returned and chip-select is
still restored to the deasserted state, and a successful write returns
success. -/
theorem C6_error_passthrough (d : AD5668 E EP) (a : Address) (v : Nat) :
    ((∀ e : E, d.spi.write (encode_update_command Command.WriteInputRegister a v) = Except.error e →
        (d.write_input_register a v).2 = Except.error e ∧
        csDeassertedAtEnd (d.write_input_register a v).1 = true) ∧
      (d.spi.write (encode_update_command Command.WriteInputRegister a v) = Except.ok () →
        (d.write_input_register a v).2 = Except.ok ())) ∧
    ((∀ e : E, d.spi.write (encode_update_command Command.UpdateDacRegister a v) = Except.error e →
        (d.update_dac_register a v).2 = Except.error e ∧
        csDeassertedAtEnd (d.update_dac_register a v).1 = true) ∧
      (d.spi.write (encode_update_command Command.UpdateDacRegister a v) = Except.ok () →
        (d.update_dac_register a v).2 = Except.ok ())) ∧
    ((∀ e : E, d.spi.write (encode_update_command Command.WriteInputUpdateAll a v) = Except.error e →
        (d.write_input_register_update_all a v).2 = Except.error e ∧
        csDeassertedAtEnd (d.write_input_register_update_all a v).1 = true) ∧
      (d.spi.write (encode_update_command Command.WriteInputUpdateAll a v) = Except.ok () →
        (d.write_input_register_update_all a v).2 = Except.ok ())) ∧
    ((∀ e : E, d.spi.write (encode_update_command Command.WriteUpdateDacChannel a v) = Except.error e →
        (d.write_and_update_dac_channel a v).2 = Except.error e ∧
        csDeassertedAtEnd (d.write_and_update_dac_channel a v).1 = true) ∧
      (d.spi.write (encode_update_command Command.WriteUpdateDacChannel a v) = Except.ok () →
        (d.write_and_update_dac_channel a v).2 = Except.ok ())) ∧
    ((∀ e : E, d.spi.write [0x08, 0x00, 0x00, 0x01] = Except.error e →
        d.enable_internal_ref.2 = Except.error e ∧
        csDeassertedAtEnd d.enable_internal_ref.1 = true) ∧
      (d.spi.write [0x08, 0x00, 0x00, 0x01] = Except.ok () →
        d.enable_internal_ref.2 = Except.ok ())) ∧
    ((∀ e : E, d.spi.write [0x08, 0x00, 0x00, 0x00] = Except.error e →
        d.disable_internal_ref.2 = Except.error e ∧
        csDeassertedAtEnd d.disable_internal_ref.1 = true) ∧
      (d.spi.write [0x08, 0x00, 0x00, 0x00] = Except.ok () →
        d.disable_internal_ref.2 = Except.ok ())) ∧
    ((∀ e : E, d.spi.write [0x07, 0x00, 0x00, 0x00] = Except.error e →
        d.reset.2 = Except.error e ∧
        csDeassertedAtEnd d.reset.1 = true) ∧
      (d.spi.write [0x07, 0x00, 0x00, 0x00] = Except.ok () →
        d.reset.2 = Except.ok ())) :=
  ⟨⟨fun _ h => ⟨h, rfl⟩, fun h => h⟩,
   ⟨fun _ h => ⟨h, rfl⟩, fun h => h⟩,
   ⟨fun _ h => ⟨h, rfl⟩, fun h => h⟩,
   ⟨fun _ h => ⟨h, rfl⟩, fun h => h⟩,
   ⟨fun _ h => ⟨h, rfl⟩, fun h => h⟩,
   ⟨fun _ h => ⟨h, rfl⟩, fun h => h⟩,
   ⟨fun _ h => ⟨h, rfl⟩, fun h => h⟩⟩

/-- A fixture bus whose every write fails with error `42`. -/
def failSpi : SpiBus Nat :=
  ⟨fun _ => Except.error 42⟩

/-- A fixture chip-select pin whose operations succeed. -/
def plainCs : ChipSelect Nat :=
  ⟨Except.ok (), Except.ok ()⟩

/-- A fixture driver on the always-failing bus. -/
def failingDriver : AD5668 Nat Nat :=
  ⟨failSpi, plainCs⟩

/-- Witness for C6 on the always-failing bus: `write_input_register` returns
the bus error `42` unchanged and the trace still ends deasserted. -/
theorem C6_error_passthrough_witness :
    (failingDriver.write_input_register Address.DacA 0).2 = Except.error 42 ∧
    csDeassertedAtEnd (failingDriver.write_input_register Address.DacA 0).1 = true :=
  (C6_error_passthrough failingDriver Address.DacA 0).1.1 42 rfl

/-- C8: the encoder is deterministic and pure — two calls at identical
inputs yield identical frames — and total on type-valid inputs: it always
yields a 4-byte frame whose entries are valid bytes. -/
theorem C8_encode_deterministic_total (c : Command) (a : Address) (v : Nat) :
    encode_update_command c a v = encode_update_command c a v ∧
    (encode_update_command c a v).length = 4 ∧
    (encode_update_command c a v).all (fun b => decide (b < 256)) = true := by
  refine ⟨rfl, rfl, ?_⟩
  have hc : c.code < 256 := by cases c <;> decide
  simp [encode_update_command]
  omega

/-- C10: the 16-bit value is fully recoverable from the encoded frame by
`((b1 AND 0x0F) << 12) OR (b2 << 4) OR (b3 >> 4)`, the address nibble of
byte 1 is intact (the addition never carries into it), and the encoder is
injective in the value for a fixed command and address. -/
theorem C10_value_recoverable (c : Command) (a : Address) (v w : Nat)
    (hv : v < 65536) (hw : w < 65536) :
    (∀ b0 b1 b2 b3 : Nat, encode_update_command c a v = [b0, b1, b2, b3] →
      (((b1 &&& 15) * 4096) ||| (b2 * 16) ||| (b3 / 16) = v ∧ b1 / 16 = a.code)) ∧
    (encode_update_command c a v = encode_update_command c a w → v = w) := by
  have ha : a.code ≤ 15 := a.code_le
  constructor
  · intro b0 b1 b2 b3 h
    simp only [encode_update_command, List.cons.injEq, and_true] at h
    obtain ⟨h0, h1, h2, h3⟩ := h
    subst h1 h2 h3
    have e1 : ((a.code * 16) % 256 + (v / 4096) % 256) % 256 = a.code * 16 + v / 4096 := by
      omega
    have e3 : (v * 16) % 65536 % 256 = (v % 16) * 16 := by
      omega
    rw [e1, e3]
    have hland : (a.code * 16 + v / 4096) &&& 15 = (a.code * 16 + v / 4096) % 16 := by
      have h15 := Nat.and_pow_two_sub_one_eq_mod (a.code * 16 + v / 4096) 4
      norm_num at h15
      exact h15
    rw [hland]
    have e4 : (a.code * 16 + v / 4096) % 16 = v / 4096 := by omega
    rw [e4]
    refine ⟨?_, by omega⟩
    have e5 : (v % 16) * 16 / 16 = v % 16 := by omega
    rw [e5]
    have hA : (v / 4096 * 4096) ||| ((v / 16) % 256 * 16) =
        v / 4096 * 4096 + (v / 16) % 256 * 16 := by
      have h12 := lor_mul_pow 12 (v / 4096) ((v / 16) % 256 * 16) (by norm_num; omega)
      norm_num at h12
      exact h12
    rw [hA]
    have hcomb : v / 4096 * 4096 + (v / 16) % 256 * 16 =
        (v / 4096 * 256 + (v / 16) % 256) * 16 := by ring
    rw [hcomb]
    rw [lor_nibble (v / 4096 * 256 + (v / 16) % 256) (v % 16) (by omega)]
    omega
  · intro h
    simp only [encode_update_command, List.cons.injEq, and_true] at h
    obtain ⟨h0, h1, h2, h3⟩ := h
    omega

/-- Witness for C10 at command `WriteInputRegister`, address `AllDacs` and
value `0x1234`, whose frame is `[0x00, 0xF1, 0x23, 0x40]`. -/
theorem C10_value_recoverable_witness :
    ((((241 &&& 15) * 4096) ||| (35 * 16) ||| (64 / 16) = 4660 ∧
      241 / 16 = Address.AllDacs.code) ∧
    (encode_update_command Command.WriteInputRegister Address.AllDacs 4660 =
        encode_update_command Command.WriteInputRegister Address.AllDacs 4660 →
      4660 = 4660)) := by
  have h := C10_value_recoverable Command.WriteInputRegister Address.AllDacs 4660 4660
    (by decide) (by decide)
  exact ⟨h.1 0 241 35 64 (by decide), h.2⟩

end AD5668Driver
